import Mathlib

/-!
Verification of the voltron broker/transport core (voltron.py).

The development shallowly embeds the broker-side connection handling
(ClientHandler), the roster and dispatch queue manipulated by the server
thread (ServerThread.run), the start/stop command surface
(VoltronCommand.stop), and the file-bridge producer
(GDB6Proxy.read_registers).  Sockets and pickling are abstracted: inbound
bytes are represented by their deserialization outcome, and each socket
write performed by the broker is recorded as an explicit `Send` value.
-/

namespace Voltron

/-- Opaque update payload.  The broker never inspects the `data` blob of a
push record; it is modelled as a string. -/
abbrev Data := String

/-- A view configuration as carried in a register record (`msg['config']`):
`type` is the subscribed category, `update_on` the refresh trigger, `cmd`
is present only for command views (VoltronView.DEFAULT_CONFIG plus the
per-view `setup` methods). -/
structure Config where
  type : String
  update_on : String
  cmd : Option String
deriving DecidableEq, Repr

/-- A broker-side connection (ClientHandler): a socket identifier plus the
current registration, `none` until the first register record arrives.  The
code stores the whole register message and only ever reads
`registration['config']`, so the config is what we keep. -/
structure Client where
  cid : Nat
  registration : Option Config
deriving DecidableEq, Repr

/-- An outbound event dict as built by handle_push_update and
VoltronCommand.update: a `msg_type` field and a data blob. -/
structure Event where
  msg_type : String
  data : Data
deriving DecidableEq, Repr

/-- Broker process-wide mutable state: the `clients` roster in insertion
order, and the outbound `queue` of (target connection id, event) pairs in
FIFO order. -/
structure BrokerState where
  clients : List Client
  queue : List (Nat × Event)
deriving DecidableEq, Repr

/-- A record the broker writes to a socket: a pickled event
(ClientHandler.send_event) or the ack record sent by handle_push_update. -/
inductive OutMsg
| event (e : Event)
| ack
deriving DecidableEq, Repr

/-- One socket write performed by the broker: the target connection id and
the record written. -/
structure Send where
  target : Nat
  msg : OutMsg
deriving DecidableEq, Repr

/-- A successfully deserialized inbound record.  `other` covers records
whose `msg_type` is neither `register` nor `push_update`; the attached
hypothesis keeps the constructor disjoint from the two dispatched kinds,
mirroring the string dispatch in handle_read. -/
inductive Rec
| register (config : Config)
| push_update (update_type : String) (d : Data)
| other (kind : String) (hk : kind ≠ "register" ∧ kind ≠ "push_update")

/-- The outcome of `recv` plus `pickle.loads` for one call to
ClientHandler.handle_read: whitespace-only data is skipped before any
parse, otherwise deserialization yields a record or raises. -/
inductive InData
| blank
| valid (r : Rec)
| garbage (raw : String)

/-- ClientHandler.handle_register: `self.registration = msg` — the
connection's registration is replaced wholesale with the incoming one. -/
def handle_register (selfId : Nat) (cfg : Config) (st : BrokerState) : BrokerState :=
  { st with
    clients := st.clients.map fun c =>
      if c.cid = selfId then { c with registration := some cfg } else c }

/-- The fan-out test in handle_push_update:
`client.registration != None and client.registration['config']['type'] == msg['update_type']`. -/
def matching (ut : String) (c : Client) : Bool :=
  match c.registration with
  | none => false
  | some cfg => cfg.type == ut

/-- ClientHandler.handle_push_update: build one update event carrying the
record's data, enqueue it for every matching client in roster order, then
send a single ack record back to the sender. -/
def handle_push_update (selfId : Nat) (ut : String) (d : Data) (st : BrokerState) :
    BrokerState × List Send :=
  let event : Event := ⟨"update", d⟩
  let q := st.clients.foldl
    (fun q c => if matching ut c then q ++ [(c.cid, event)] else q) st.queue
  ({ st with queue := q }, [⟨selfId, OutMsg.ack⟩])

/-- ClientHandler.handle_close: close the socket and remove this connection
from the roster; `clients.remove(self)` deletes the first occurrence. -/
def handle_close (selfId : Nat) (st : BrokerState) : BrokerState :=
  { st with clients := st.clients.eraseP fun c => c.cid == selfId }

/-- Server.handle_accept: wrap the accepted socket in a fresh ClientHandler
(whose registration is None) and append it to the roster. -/
def handle_accept (newId : Nat) (st : BrokerState) : BrokerState :=
  { st with clients := st.clients ++ [⟨newId, none⟩] }

/-- ClientHandler.handle_read.  Whitespace-only data is ignored.  A record
that deserializes is dispatched on its `msg_type`; an unrecognized type is
logged with no state change.  When `pickle.loads` raises, the except
branch only logs, and control falls through to `msg['msg_type']` with
`msg` unbound, so the handler raises UnboundLocalError: modelled as
`.error ()`. -/
def handle_read (selfId : Nat) (d : InData) (st : BrokerState) :
    Except Unit (BrokerState × List Send) :=
  match d with
  | .blank => .ok (st, [])
  | .valid (.register cfg) => .ok (handle_register selfId cfg st, [])
  | .valid (.push_update ut dat) => .ok (handle_push_update selfId ut dat st)
  | .valid (.other _ _) => .ok (st, [])
  | .garbage _ => .error ()

/-- The socket writes performed by the queue drain in ServerThread.run:
`while not queue.empty(): client, event = queue.get(); client.send_event(event)`
— each queued event is written to its target in FIFO order, with no check
of the roster. -/
def drainSends : List (Nat × Event) → List Send
| [] => []
| (cid, e) :: rest => ⟨cid, OutMsg.event e⟩ :: drainSends rest

/-- The queue-drain phase of one ServerThread.run loop iteration: the
queue is emptied and every event is sent to its recorded target. -/
def drainQueue (st : BrokerState) : BrokerState × List Send :=
  ({ st with queue := [] }, drainSends st.queue)

/-- VoltronCommand state touched by stop: the `running` flag, whether the
debugger stop hooks are connected, and the server thread's should-exit
flag. -/
structure CmdState where
  running : Bool
  hooks : Bool
  should_exit_flag : Bool
deriving DecidableEq, Repr

/-- Observable steps taken by VoltronCommand.stop.  `kill` is never
emitted by the model; it exists so that the absence of forcible thread
termination is expressible. -/
inductive StopAct
| msg (s : String)
| unregister_hooks
| set_should_exit (b : Bool)
| join (timeout : Nat)
| kill
deriving DecidableEq, Repr

/-- VoltronCommand.stop.  The parameter `alive_after_join` records whether
`self.thread.isAlive()` still holds once the 10 second join returns. -/
def stop (alive_after_join : Bool) (st : CmdState) : CmdState × List StopAct :=
  if st.running then
    ({ running := false, hooks := false, should_exit_flag := true },
     [StopAct.msg "Stopping voltron", StopAct.unregister_hooks,
      StopAct.set_should_exit true, StopAct.join 10] ++
       (if alive_after_join then [StopAct.msg "Failed to stop voltron :<"] else []))
  else
    (st, [StopAct.msg "Not running"])

/-- A byte of a register dump file. -/
abbrev Byte := Fin 256

/-- Little-endian unsigned decoding, as performed by `struct.unpack` with
format `<Q` (8 bytes) or `<L` (4 bytes): the first byte is least
significant. -/
def decodeLE : List Byte → Nat
| [] => 0
| b :: bs => b.val + 256 * decodeLE bs

/-- GDB6Proxy.REGISTERS: the fixed set of register files read by the
file-bridge producer. -/
def REGISTERS : List String :=
  ["rax", "rbx", "rcx", "rdx", "rbp", "rsp", "rdi", "rsi", "rip",
   "r8", "r9", "r10", "r11", "r12", "r13", "r14", "r15", "eflags"]

/-- The value recorded for one register in the pushed data: a decoded
integer, or the marker string recorded when reading the register file
failed. -/
inductive RegVal
| val (n : Nat)
| fail
deriving DecidableEq, Repr

/-- The byte width `struct.unpack` demands for a register file: 4 (`<L`)
for eflags, 8 (`<Q`) for every general register. -/
def regWidth (reg : String) : Nat :=
  if reg == "eflags" then 4 else 8

/-- The per-register loop body of GDB6Proxy.read_registers: open
`/tmp/voltron.reg.<reg>`, read it, unpack; any exception — the file being
unreadable (`files reg = none`) or its contents not being exactly the
demanded width — is caught and recorded as the failure marker. -/
def readReg (files : String → Option (List Byte)) (reg : String) : RegVal :=
  match files reg with
  | none => RegVal.fail
  | some bs =>
      if bs.length = regWidth reg then RegVal.val (decodeLE bs) else RegVal.fail

/-- The push_update event built by GDB6Proxy.read_registers. -/
structure PushEvent where
  msg_type : String
  update_type : String
  data : List (String × RegVal)
deriving DecidableEq, Repr

/-- GDB6Proxy.read_registers: one data entry per name in REGISTERS, in
order, wrapped in a push_update event of update_type `register`. -/
def read_registers (files : String → Option (List Byte)) : PushEvent :=
  ⟨"push_update", "register", REGISTERS.map fun reg => (reg, readReg files reg)⟩

/-- The queue entries a push of category `ut` and payload `d` appends: one
update event per matching client, in roster order. -/
def fanout (ut : String) (d : Data) (cs : List Client) : List (Nat × Event) :=
  (cs.filter (matching ut)).map fun c => (c.cid, (⟨"update", d⟩ : Event))

theorem foldl_enqueue (ut : String) (e : Event) (cs : List Client)
    (init : List (Nat × Event)) :
    cs.foldl (fun q c => if matching ut c then q ++ [(c.cid, e)] else q) init
      = init ++ (cs.filter (matching ut)).map fun c => (c.cid, e) := by
  induction cs generalizing init with
  | nil => simp
  | cons c cs ih =>
    cases h : matching ut c <;>
      simp [List.filter_cons, h, ih, List.append_assoc]

theorem matching_iff (ut : String) (c : Client) :
    matching ut c = true ↔ ∃ cfg, c.registration = some cfg ∧ cfg.type = ut := by
  cases h : c.registration with
  | none => simp [matching, h]
  | some cfg => simp [matching, h]

theorem mem_fanout_iff (ut : String) (d : Data) (cs : List Client) (c : Client)
    (hnodup : (cs.map Client.cid).Nodup) (hc : c ∈ cs) :
    ((c.cid, (⟨"update", d⟩ : Event)) ∈ fanout ut d cs) ↔ matching ut c = true := by
  constructor
  · intro hmem
    rcases List.mem_map.1 hmem with ⟨c0, hc0, heq⟩
    have hcs : c0 ∈ cs := (List.mem_filter.1 hc0).1
    have hm : matching ut c0 = true := (List.mem_filter.1 hc0).2
    have hcid : c0.cid = c.cid := congrArg Prod.fst heq
    have hco : c0 = c := List.inj_on_of_nodup_map hnodup hcs hc hcid
    exact hco ▸ hm
  · intro hm
    exact List.mem_map.2 ⟨c, List.mem_filter.2 ⟨hc, hm⟩, rfl⟩

theorem drainSends_eq_map (q : List (Nat × Event)) :
    drainSends q = q.map fun p => ⟨p.1, OutMsg.event p.2⟩ := by
  induction q with
  | nil => rfl
  | cons p rest ih =>
    cases p
    simp [drainSends, ih]

theorem map_cid_update (selfId : Nat) (cfg : Config) (cs : List Client) :
    (cs.map fun c =>
        if c.cid = selfId then { c with registration := some cfg } else c).map Client.cid
      = cs.map Client.cid := by
  induction cs with
  | nil => rfl
  | cons c cs ih =>
    by_cases h : c.cid = selfId <;> simp [h, ih]

theorem register_preserves_cids (selfId : Nat) (cfg : Config) (st : BrokerState) :
    (handle_register selfId cfg st).clients.map Client.cid
      = st.clients.map Client.cid :=
  map_cid_update selfId cfg st.clients

theorem lookup_map_self (f : String → RegVal) :
    ∀ (l : List String), ∀ r ∈ l, (l.map fun x => (x, f x)).lookup r = some (f r)
  | [], r, hr => absurd hr (List.not_mem_nil r)
  | a :: l, r, hr => by
    by_cases h : r = a
    · subst h
      simp [List.lookup]
    · have hr0 : r ∈ l := by
        rcases List.mem_cons.1 hr with h1 | h1
        · exact absurd h1 h
        · exact h1
      have hba : (r == a) = false := by simp [h]
      simp [List.lookup, hba, lookup_map_self f l r hr0]

theorem map_fst_pairs (f : String → RegVal) (l : List String) :
    (l.map fun x => (x, f x)).map Prod.fst = l := by
  induction l with
  | nil => rfl
  | cons a l ih => simp [ih]

/-- C1: a push_update of category `ut` appends to the queue exactly one
update event carrying the record's data per matching roster connection:
a connection receives an entry iff it holds a non-null registration whose
category equals `ut`; connections with a different registered category or
no registration receive none. -/
theorem c1_push_fanout (st : BrokerState) (selfId : Nat) (ut : String) (d : Data)
    (hnodup : (st.clients.map Client.cid).Nodup) :
    (handle_push_update selfId ut d st).1.queue = st.queue ++ fanout ut d st.clients
    ∧ ∀ c ∈ st.clients,
        ((c.cid, (⟨"update", d⟩ : Event)) ∈ fanout ut d st.clients
          ↔ ∃ cfg, c.registration = some cfg ∧ cfg.type = ut) := by
  refine ⟨?_, ?_⟩
  · simp [handle_push_update, fanout, foldl_enqueue]
  · intro c hc
    rw [mem_fanout_iff ut d st.clients c hnodup hc, matching_iff]

def c1st : BrokerState :=
  ⟨[⟨0, some ⟨"register", "stop", none⟩⟩, ⟨1, some ⟨"stack", "stop", none⟩⟩,
    ⟨2, none⟩], []⟩

/-- Witness for C1: in a concrete roster with a register subscriber, a
stack subscriber and an unregistered connection, the register subscriber
receives the fan-out entry of a register push. -/
theorem c1_push_fanout_witness :
    (c1st.clients.map Client.cid).Nodup
    ∧ ((0 : Nat), (⟨"update", "blob"⟩ : Event)) ∈ fanout "register" "blob" c1st.clients :=
  ⟨by decide,
   ((c1_push_fanout c1st 5 "register" "blob" (by decide)).2
       ⟨0, some ⟨"register", "stop", none⟩⟩ (by decide)).mpr
     ⟨⟨"register", "stop", none⟩, rfl, rfl⟩⟩

def c2st : BrokerState := ⟨[], [(0, ⟨"update", "blob"⟩)]⟩

/-- C2 counterexample: the target of the queued event has been removed
(the roster is empty), yet the drain still writes the event to connection
0 instead of discarding it — the loop has no roster liveness check. -/
theorem c2_counterexample :
    c2st.clients = [] ∧ (drainQueue c2st).2 = [⟨0, OutMsg.event ⟨"update", "blob"⟩⟩] :=
  ⟨rfl, rfl⟩

/-- C2 (amended): the drain phase empties the queue and writes every
queued event to its recorded target connection in FIFO order, leaving the
roster unchanged; no roster-membership check is made, so events whose
target has closed are written rather than discarded. -/
theorem c2_drain_unconditional (st : BrokerState) :
    (drainQueue st).1.queue = []
    ∧ (drainQueue st).1.clients = st.clients
    ∧ (drainQueue st).2 = st.queue.map fun p => ⟨p.1, OutMsg.event p.2⟩ :=
  ⟨rfl, rfl, drainSends_eq_map st.queue⟩

def c3st : BrokerState := ⟨[⟨0, none⟩], []⟩

/-- C3: on undeserializable input handle_read does not log and continue:
after the except branch logs, control falls through to `msg['msg_type']`
with `msg` unbound and the handler raises, modelled as an error result. -/
theorem c3_garbage_errors :
    handle_read 0 (InData.garbage "x") c3st = Except.error () := rfl

/-- C4: a register record replaces the connection's registration wholesale
with the new config, and the fan-out of any later push over the updated
roster is decided by the new category alone: the re-registered connection
receives an entry iff the pushed category equals the new config's
category. -/
theorem c4_reregister (st : BrokerState) (selfId : Nat) (cfgNew : Config)
    (ut : String) (d : Data) (hnodup : (st.clients.map Client.cid).Nodup) :
    (∀ c ∈ (handle_register selfId cfgNew st).clients,
        c.cid = selfId → c.registration = some cfgNew)
    ∧ ∀ c ∈ (handle_register selfId cfgNew st).clients, c.cid = selfId →
        ((c.cid, (⟨"update", d⟩ : Event))
            ∈ fanout ut d (handle_register selfId cfgNew st).clients
          ↔ cfgNew.type = ut) := by
  have hrepl : ∀ c ∈ (handle_register selfId cfgNew st).clients,
      c.cid = selfId → c.registration = some cfgNew := by
    intro c hc hcid
    simp only [handle_register] at hc
    rcases List.mem_map.1 hc with ⟨c0, _, rfl⟩
    by_cases h : c0.cid = selfId
    · simp [h]
    · rw [if_neg h] at hcid
      exact absurd hcid h
  refine ⟨hrepl, ?_⟩
  intro c hc hcid
  have hnodup2 : ((handle_register selfId cfgNew st).clients.map Client.cid).Nodup := by
    rw [register_preserves_cids]
    exact hnodup
  rw [mem_fanout_iff ut d _ c hnodup2 hc, matching_iff]
  simp [hrepl c hc hcid]

def c4st : BrokerState := ⟨[⟨0, some ⟨"register", "stop", none⟩⟩, ⟨1, none⟩], []⟩

/-- Witness for C4: connection 0, previously registered for category
register, re-registers for stack; a subsequent stack push fans out to
it. -/
theorem c4_reregister_witness :
    (c4st.clients.map Client.cid).Nodup
    ∧ ((0 : Nat), (⟨"update", "blob"⟩ : Event))
        ∈ fanout "stack" "blob" (handle_register 0 ⟨"stack", "stop", none⟩ c4st).clients :=
  ⟨by decide,
   ((c4_reregister c4st 0 ⟨"stack", "stop", none⟩ "stack" "blob" (by decide)).2
       ⟨0, some ⟨"stack", "stop", none⟩⟩ (by decide) rfl).mpr rfl⟩

/-- C5: the only socket write handle_push_update performs is a single ack
record back to the sending connection, issued together with the fan-out
enqueue of the push. -/
theorem c5_single_ack (st : BrokerState) (selfId : Nat) (ut : String) (d : Data) :
    (handle_push_update selfId ut d st).2 = [⟨selfId, OutMsg.ack⟩]
    ∧ (handle_push_update selfId ut d st).1.queue = st.queue ++ fanout ut d st.clients :=
  ⟨rfl, by simp [handle_push_update, fanout, foldl_enqueue]⟩

/-- C6: stop on a non-running broker returns the state unchanged and only
prints, with no join, no flag set and no hook change; stop on a running
broker sets the should-exit flag, joins the thread with the 10 second
timeout, reports to the operator when the thread is still alive after the
join, and never kills the thread. -/
theorem c6_stop (st : CmdState) (alive : Bool) :
    (st.running = false → stop alive st = (st, [StopAct.msg "Not running"]))
    ∧ (st.running = true →
        (stop alive st).1.should_exit_flag = true
        ∧ StopAct.join 10 ∈ (stop alive st).2
        ∧ (alive = true → StopAct.msg "Failed to stop voltron :<" ∈ (stop alive st).2)
        ∧ StopAct.kill ∉ (stop alive st).2) := by
  cases hr : st.running <;> cases alive <;> simp [stop, hr]

def c6run : CmdState := ⟨true, true, false⟩

def c6stopped : CmdState := ⟨false, false, false⟩

/-- Witness for C6: stop on a stopped broker only prints; stop on a
running broker whose thread outlives the join performs the join, reports
the failure, and emits no kill. -/
theorem c6_stop_witness :
    stop true c6stopped = (c6stopped, [StopAct.msg "Not running"])
    ∧ StopAct.join 10 ∈ (stop true c6run).2
    ∧ StopAct.msg "Failed to stop voltron :<" ∈ (stop true c6run).2
    ∧ StopAct.kill ∉ (stop true c6run).2 :=
  ⟨(c6_stop c6stopped true).1 rfl,
   ((c6_stop c6run true).2 rfl).2.1,
   ((c6_stop c6run true).2 rfl).2.2.1 rfl,
   ((c6_stop c6run true).2 rfl).2.2.2⟩

/-- C7: when the file for a register cannot be read, read_registers
records the failure marker for that register, still emits one entry per
register — each decided solely by its own file — and still wraps the data
in the push_update event, so the push proceeds. -/
theorem c7_best_effort (files : String → Option (List Byte)) (reg : String)
    (hreg : reg ∈ REGISTERS) (hfail : files reg = none) :
    (read_registers files).data.lookup reg = some RegVal.fail
    ∧ (read_registers files).data.map Prod.fst = REGISTERS
    ∧ (∀ r ∈ REGISTERS, (read_registers files).data.lookup r = some (readReg files r))
    ∧ (read_registers files).msg_type = "push_update" := by
  refine ⟨?_, map_fst_pairs _ _, ?_, rfl⟩
  · have h := lookup_map_self (readReg files) REGISTERS reg hreg
    simpa [read_registers, readReg, hfail] using h
  · intro r hr
    exact lookup_map_self (readReg files) REGISTERS r hr

def c7files : String → Option (List Byte) := fun _ => none

/-- Witness for C7: with every register file unreadable, rax is recorded
as the failure marker and the data still lists all registers. -/
theorem c7_best_effort_witness :
    "rax" ∈ REGISTERS
    ∧ (read_registers c7files).data.lookup "rax" = some RegVal.fail
    ∧ (read_registers c7files).data.map Prod.fst = REGISTERS :=
  ⟨by decide,
   (c7_best_effort c7files "rax" (by decide) rfl).1,
   (c7_best_effort c7files "rax" (by decide) rfl).2.1⟩

def le1234 : List Byte := [0x34, 0x12, 0, 0, 0, 0, 0, 0]

/-- C8: a general register file is decoded as an 8-byte little-endian
unsigned integer, the eflags file as a 4-byte little-endian unsigned
integer, and the 8-byte little-endian encoding of 0x1234 decodes to
0x1234. -/
theorem c8_little_endian (files : String → Option (List Byte)) (reg : String)
    (bs : List Byte) :
    (reg ≠ "eflags" → files reg = some bs → bs.length = 8 →
        readReg files reg = RegVal.val (decodeLE bs))
    ∧ (files "eflags" = some bs → bs.length = 4 →
        readReg files "eflags" = RegVal.val (decodeLE bs))
    ∧ decodeLE le1234 = 0x1234 := by
  refine ⟨?_, ?_, by decide⟩
  · intro hne hf hl
    have hw : regWidth reg = 8 := by simp [regWidth, hne]
    simp [readReg, hf, hw, hl]
  · intro hf hl
    simp [readReg, hf, regWidth, hl]

def c8files : String → Option (List Byte) :=
  fun r => if r = "rax" then some le1234 else none

/-- Witness for C8: a rax file holding the 8-byte little-endian encoding
of 0x1234 yields the integer 0x1234 for rax in the pushed data. -/
theorem c8_little_endian_witness :
    readReg c8files "rax" = RegVal.val 0x1234
    ∧ (read_registers c8files).data.lookup "rax" = some (RegVal.val 0x1234) := by
  have h := (c8_little_endian c8files "rax" le1234).1 (by decide) (by decide) (by decide)
  have h2 : decodeLE le1234 = 0x1234 := by decide
  rw [h2] at h
  refine ⟨h, ?_⟩
  have h3 := lookup_map_self (readReg c8files) REGISTERS "rax" (by decide)
  rw [h] at h3
  exact h3

/-- An inbound record whose kind is neither register nor push_update. -/
def recOther : Rec := Rec.other "hello" (by decide)

/-- C9: the roster changes membership only on accept — the fresh
unregistered connection is appended, preserving insertion order — and on
close — the result is a sublist of the roster and every connection with a
different id survives; register preserves the roster ids, and
push_update, the queue drain, an unrecognized-kind record and an
undeserializable record leave the roster untouched. -/
theorem c9_roster (st : BrokerState) (selfId newId : Nat) (cfg : Config)
    (ut : String) (d : Data) (raw : String) :
    (handle_accept newId st).clients = st.clients ++ [⟨newId, none⟩]
    ∧ (handle_close selfId st).clients.Sublist st.clients
    ∧ (∀ c ∈ st.clients, c.cid ≠ selfId → c ∈ (handle_close selfId st).clients)
    ∧ (handle_register selfId cfg st).clients.map Client.cid = st.clients.map Client.cid
    ∧ (handle_push_update selfId ut d st).1.clients = st.clients
    ∧ (drainQueue st).1.clients = st.clients
    ∧ handle_read selfId (InData.valid recOther) st = Except.ok (st, [])
    ∧ handle_read selfId (InData.garbage raw) st = Except.error () := by
  refine ⟨rfl, List.eraseP_sublist _, ?_,
    register_preserves_cids selfId cfg st, rfl, rfl, rfl, rfl⟩
  intro c hc hne
  have pa : ¬((c.cid == selfId) = true) := by simp [hne]
  exact (List.mem_eraseP_of_neg (p := fun x => x.cid == selfId) (a := c) pa).2 hc

def c9st : BrokerState := ⟨[⟨0, none⟩, ⟨1, none⟩], []⟩

/-- Witness for C9: accepting connection 2 appends it, closing connection
0 keeps connection 1, and garbage input yields the handler error, not a
roster change. -/
theorem c9_roster_witness :
    (handle_accept 2 c9st).clients = c9st.clients ++ [⟨2, none⟩]
    ∧ (handle_close 0 c9st).clients.Sublist c9st.clients
    ∧ (⟨1, none⟩ : Client) ∈ (handle_close 0 c9st).clients
    ∧ handle_read 0 (InData.garbage "x") c9st = Except.error () :=
  ⟨(c9_roster c9st 0 2 ⟨"register", "stop", none⟩ "register" "blob" "x").1,
   (c9_roster c9st 0 2 ⟨"register", "stop", none⟩ "register" "blob" "x").2.1,
   (c9_roster c9st 0 2 ⟨"register", "stop", none⟩ "register" "blob" "x").2.2.1
     ⟨1, none⟩ (by decide) (by decide),
   (c9_roster c9st 0 2 ⟨"register", "stop", none⟩ "register" "blob" "x").2.2.2.2.2.2.2⟩

/-- C10: the data pushed by read_registers has exactly the 18 REGISTERS
names as its keys, in order, and every entry holds the read result for
its own register — a decoded integer or the failure marker — so no
register entry is ever missing. -/
theorem c10_key_set (files : String → Option (List Byte)) :
    (read_registers files).data.map Prod.fst = REGISTERS
    ∧ REGISTERS.length = 18
    ∧ ∀ p ∈ (read_registers files).data,
        p.2 = readReg files p.1 ∧ (p.2 = RegVal.fail ∨ ∃ n, p.2 = RegVal.val n) := by
  refine ⟨map_fst_pairs _ _, rfl, ?_⟩
  intro p hp
  simp only [read_registers] at hp
  rcases List.mem_map.1 hp with ⟨r, _, rfl⟩
  refine ⟨rfl, ?_⟩
  cases h : readReg files r with
  | val n => exact Or.inr ⟨n, by simp [h]⟩
  | fail => exact Or.inl (by simp [h])

def c10files : String → Option (List Byte) := fun _ => none

/-- Witness for C10: with unreadable files the key list is still all of
REGISTERS and the rax entry carries the failure marker. -/
theorem c10_key_set_witness :
    (read_registers c10files).data.map Prod.fst = REGISTERS
    ∧ (RegVal.fail = readReg c10files "rax"
       ∧ (RegVal.fail = RegVal.fail ∨ ∃ n, RegVal.fail = RegVal.val n)) :=
  ⟨(c10_key_set c10files).1,
   (c10_key_set c10files).2.2 ("rax", RegVal.fail) (by decide)⟩

end Voltron
